import Mathlib

/-
Verification of the krux signing core.

This file is a shallow embedding, in Lean 4, of the two source files of the
repository: src/krux/key.py (BIP-39 final-word checksum search and default
derivation paths) and src/krux/psbt.py (PSBT policy inference, output
classification, fee computation and signing).

Modelling conventions:
- Python byte strings are modelled as List Nat (one Nat per byte).
- Python exceptions are modelled with Except PyError; each constructor of
  PyError names the Python exception class it stands for.
- External collaborators (the embit primitive library, hashlib sha256, the
  base43/58/64 and UR/CBOR codecs, the 2048-entry BIP-39 word list) are
  out of scope per the design; they are modelled as explicit function
  parameters (bundled in the Env structure for psbt.py), and the word list
  is abstracted to word indices: a word is its 11-bit index, so that
  WORDLIST.index and WORDLIST[i] are both the identity on indices below
  2048 and fail outside that range, exactly as list lookup does.
- Python dicts that the code only iterates or looks up are modelled as
  association lists in insertion order.
-/

/-- Python exception classes raised (directly or by builtins) in the source. -/
inductive PyError where
  | valueError (msg : String)
  | typeError (msg : String)
  | unboundLocalError (varName : String)
  | indexError
  | keyError (key : String)
  | attributeError (msg : String)
  | overflowError
deriving DecidableEq, Repr

instance {ε α : Type} [DecidableEq ε] [DecidableEq α] : DecidableEq (Except ε α) := fun x y =>
  match x, y with
  | .ok a, .ok b =>
    if h : a = b then isTrue (by rw [h]) else isFalse (by intro he; cases he; exact h rfl)
  | .error e, .error f =>
    if h : e = f then isTrue (by rw [h]) else isFalse (by intro he; cases he; exact h rfl)
  | .ok _, .error _ => isFalse (by intro h; cases h)
  | .error _, .ok _ => isFalse (by intro h; cases h)

/-- Left-to-right effectful map over a list in the Except monad; this is the
evaluation order of a Python list comprehension or accumulating loop whose
body may raise: the first exception aborts the whole computation. -/
def exceptMap {α β : Type} (f : α → Except PyError β) : List α → Except PyError (List β)
  | [] => .ok []
  | a :: l =>
    match f a with
    | .error e => .error e
    | .ok b =>
      match exceptMap f l with
      | .error e => .error e
      | .ok bs => .ok (b :: bs)

/-- Python `needle in hay` on strings, as contiguous-substring search over
the character lists. -/
def listInfix (needle : List Char) : List Char → Bool
  | [] => needle.isEmpty
  | c :: t => needle.isPrefixOf (c :: t) || listInfix needle t

/-- Python substring membership `needle in hay`. -/
def strContains (hay needle : String) : Bool :=
  listInfix needle.toList hay.toList

/- ----------------------------------------------------------------------
   src/krux/key.py
   ---------------------------------------------------------------------- -/

/-- Decimal digit character, embedding the rendering done by the %d format
specifier. -/
def digitChar (n : Nat) : Char := Char.ofNat (48 + n)

/-- Fuel-indexed decimal rendering helper (structural recursion so that
concrete inputs evaluate inside the kernel). -/
def natCharsAux : Nat → Nat → List Char
  | 0, _ => []
  | fuel + 1, n =>
    if n < 10 then [digitChar n]
    else natCharsAux fuel (n / 10) ++ [digitChar (n % 10)]

/-- Decimal rendering of a natural number, the meaning of %d in the DER
format strings of key.py. -/
def natChars (n : Nat) : List Char := natCharsAux (n + 1) n

/-- Apostrophe character; HARDENED_STR_REPLACE in key.py. -/
def HARDENED_STR_REPLACE : Char := Char.ofNat 39

/-- The single-sig template DER_SINGLE = m/%dh/%dh/%dh applied to
(purpose, coin, account), as done in Key.get_default_derivation. -/
def DER_SINGLE (purpose coin account : Nat) : List Char :=
  [Char.ofNat 109, Char.ofNat 47] ++ natChars purpose ++ [Char.ofNat 104, Char.ofNat 47]
    ++ natChars coin ++ [Char.ofNat 104, Char.ofNat 47] ++ natChars account ++ [Char.ofNat 104]

/-- The multisig template DER_MULTI = m/%dh/%dh/%dh/2h applied to
(purpose, coin, account). -/
def DER_MULTI (purpose coin account : Nat) : List Char :=
  DER_SINGLE purpose coin account ++ [Char.ofNat 47, Char.ofNat 50, Char.ofNat 104]

/-- SINGLESIG_SCRIPT_PURPOSE dict from key.py. -/
def SINGLESIG_SCRIPT_PURPOSE : List (String × Nat) :=
  [(("p2pkh"), 44), (("p2sh-p2wpkh"), 49), (("p2wpkh"), 84), (("p2tr"), 86)]

/-- MULTISIG_SCRIPT_PURPOSE constant from key.py. -/
def MULTISIG_SCRIPT_PURPOSE : Nat := 48

/-- The only field of the embit network dict that key.py reads in
get_default_derivation. -/
structure Network where
  bip32 : Nat
deriving DecidableEq

/-- Python dict lookup on a string-keyed association list; None when the key
is absent (the caller decides whether that is a KeyError). -/
def lookupStr {β : Type} : List (String × β) → String → Option β
  | [], _ => none
  | (k, v) :: t, key => if k = key then some v else lookupStr t key

/-- Key.get_default_derivation from key.py: chooses DER_MULTI or DER_SINGLE
and the BIP purpose constant; an unknown single-sig script type raises
KeyError through the SINGLESIG_SCRIPT_PURPOSE dict lookup. -/
def get_default_derivation (multisig : Bool) (network : Network) (account : Nat)
    (script_type : String) : Except PyError (List Char) :=
  if multisig then
    .ok (DER_MULTI MULTISIG_SCRIPT_PURPOSE network.bip32 account)
  else
    match lookupStr SINGLESIG_SCRIPT_PURPOSE script_type with
    | some purpose => .ok (DER_SINGLE purpose network.bip32 account)
    | none => .error (.keyError script_type)

/-- Key.format_derivation with pretty=False: .replace of the single
character h by HARDENED_STR_REPLACE, which on a one-character needle is a
character map. -/
def format_derivation (derivation : List Char) : List Char :=
  derivation.map (fun c => if c = 'h' then HARDENED_STR_REPLACE else c)

/-- Apostrophe character used by the claim notation m/44'/c'/a' for hardened
indices (the display form produced by format_derivation). -/
def apos : Char := Char.ofNat 39

/-- The accumulator loop of Key.get_final_word_candidates: big-endian
concatenation of 11-bit word indices, accu = (accu << 11) + index. -/
def wordAccu (words : List Nat) : Nat :=
  words.foldl (fun acc w => acc * 2048 + w) 0

/-- Python int.to_bytes(length, big): the big-endian byte list of n, length
bytes long (the caller checks the OverflowError condition n < 256^length). -/
def toBytesBE (length n : Nat) : List Nat :=
  (List.range length).map (fun k => n / 256 ^ (length - 1 - k) % 256)

/-- Loop body of Key.get_final_word_candidates for one value of i: builds
entropy = (accu << len_needed) + i, packs it big-endian (OverflowError when
it does not fit), takes the top len_cksum bits of the 32-byte sha256 digest
as cksum, and looks up word index (i << len_cksum) + cksum (IndexError when
out of wordlist range, which never happens). -/
def finalWordBody (sha256 : List Nat → Nat) (accu len_target len_needed len_cksum i : Nat) :
    Except PyError Nat :=
  if accu * 2 ^ len_needed + i < 256 ^ (len_target / 8) then
    if i * 2 ^ len_cksum
        + (sha256 (toBytesBE (len_target / 8) (accu * 2 ^ len_needed + i)) % 2 ^ 256)
          / 2 ^ (256 - len_cksum) < 2048 then
      .ok (i * 2 ^ len_cksum
        + (sha256 (toBytesBE (len_target / 8) (accu * 2 ^ len_needed + i)) % 2 ^ 256)
          / 2 ^ (256 - len_cksum))
    else .error .indexError
  else .error .overflowError

/-- Key.get_final_word_candidates from key.py. Words are modelled by their
wordlist indices; the WORDLIST.index calls of the accumulator comprehension
fail (ValueError) on any index outside the 2048-entry list. The sha256
digest (an external primitive) is a parameter; its 32-byte output is
reflected by reducing it modulo 2^256. -/
def get_final_word_candidates (sha256 : List Nat → Nat) (words : List Nat) :
    Except PyError (List Nat) :=
  if words.length ≠ 11 ∧ words.length ≠ 23 then
    .error (.valueError ("must provide 11 or 23 words"))
  else
    match exceptMap
        (fun w => if w < 2048 then Except.ok w else Except.error (.valueError ("is not in list")))
        words with
    | .error e => .error e
    | .ok idxs =>
      exceptMap
        (finalWordBody sha256 (wordAccu idxs) ((words.length * 11 + 11) / 33 * 32)
          ((words.length * 11 + 11) / 33 * 32 - words.length * 11)
          ((words.length * 11 + 11) / 33 * 32 / 32))
        (List.range (2 ^ ((words.length * 11 + 11) / 33 * 32 - words.length * 11)))

/-- BIP-39 checksum validity of a full mnemonic (given as word indices), as
stated by the specification: split the bit string into entropy and checksum
(checksum length = total/33 bits), and require the top checksum bits of the
sha256 digest of the big-endian-packed entropy to equal the checksum field. -/
def checksum_valid (sha256 : List Nat → Nat) (words : List Nat) : Bool :=
  ((sha256 (toBytesBE ((words.length * 11 - words.length * 11 / 33) / 8)
      (wordAccu words / 2 ^ (words.length * 11 / 33))) % 2 ^ 256)
    / 2 ^ (256 - words.length * 11 / 33)) == wordAccu words % 2 ^ (words.length * 11 / 33)

/-- Constant digest function standing in for sha256 in the C4 witness. -/
def sha256W : List Nat → Nat := fun _ => 0

/-- Eleven valid words (index 0 repeated) for the C4 witness. -/
def wordsW : List Nat := List.replicate 11 0

/-- Embit DerivationPath value: origin fingerprint plus path of indices. -/
structure DerivationPath where
  fingerprint : Nat
  derivation : List Nat
deriving DecidableEq

/-- Transaction output: scriptPubKey bytes and value in satoshis. -/
structure TxOut where
  script_pubkey : List Nat
  value : Int
deriving DecidableEq

/-- The parts of the transaction skeleton psbt.py reads: the number of
transaction inputs (which fixes how many fresh scopes the PSBT constructor
creates) and the outputs. -/
structure Tx where
  vinCount : Nat
  vout : List TxOut
deriving DecidableEq

/-- Per-input or per-output scope of a PSBT, restricted to the fields
psbt.py reads; the pubkey-keyed dictionaries are association lists in
insertion order. -/
structure Scope where
  witness_utxo : Option TxOut
  witness_script : Option (List Nat)
  redeem_script : Option (List Nat)
  bip32_derivations : List (Nat × DerivationPath)
  partial_sigs : List (Nat × List Nat)
deriving DecidableEq

/-- A freshly constructed scope: all metadata empty. -/
def Scope.empty : Scope := ⟨none, none, none, [], []⟩

/-- The PSBT container as psbt.py uses it. -/
structure PSBT where
  tx : Tx
  inputs : List Scope
  outputs : List Scope
  xpubs : List (Nat × DerivationPath)
deriving DecidableEq

/-- The embit PSBT(tx) constructor: a fresh PSBT around the transaction
skeleton with one empty scope per transaction input and output and no
global xpubs. -/
def PSBT.ofTx (tx : Tx) : PSBT :=
  ⟨tx, List.replicate tx.vinCount Scope.empty, List.replicate tx.vout.length Scope.empty, []⟩

/-- Origin data (fingerprint plus path) of a wallet descriptor key. -/
structure Origin where
  fingerprint : Nat
  derivation : List Nat
deriving DecidableEq

/-- One key of a wallet descriptor; pure-xpub descriptor keys carry no
origin data. -/
structure DescriptorKey where
  key : Nat
  origin : Option Origin
deriving DecidableEq

/-- A wallet descriptor: either a single key or a key list. -/
structure Descriptor where
  key : Option DescriptorKey
  keys : List DescriptorKey
deriving DecidableEq

/-- The duck-typed policy dictionary built by get_policy. The type key is
always present but its value may be Python None (unknown script type);
m, n and cosigners are present exactly when the policy is multisig.
Base58 xpub strings are modelled as Nat identifiers ordered like the
strings they stand for. -/
structure Policy where
  type : Option String
  m : Option Nat
  n : Option Nat
  cosigners : Option (List Nat)
deriving DecidableEq

/-- The Wallet collaborator exactly as psbt.py consumes it; the key root
and network are opaque identifiers interpreted by Env. -/
structure Wallet where
  is_multisig : Bool
  is_loaded : Bool
  policy : Option Policy
  descriptor : Option Descriptor
  keyRoot : Nat
  keyNetwork : Nat
deriving DecidableEq

/-- External collaborators of psbt.py (embit script builders and parsers,
HD derivation, PSBT and base/CBOR codecs), modelled as opaque functions:
script_type is Script.script_type() (None for unrecognized scripts);
p2wsh, p2sh, p2wpkh are the script-template builders; rootDerive is
HDKey.derive on the wallet root; address renders a scriptPubKey for a
network; parse_multisig returns (m, pubkeys) or fails; xpubDeriveKey is
xpub.derive(path).key; xpubBase58 is xpub.to_base58(); psbtParse and
psbtSerialize are PSBT.parse and PSBT.serialize; baseDecode and baseEncode
are the baseconv codecs; cborToPsbt and psbtToCbor are the urtypes
crypto-psbt CBOR envelope codecs; signWith is PSBT.sign_with returning the
number of signatures added together with the updated PSBT. -/
structure Env where
  script_type : List Nat → Option String
  p2wsh : List Nat → List Nat
  p2sh : List Nat → List Nat
  p2wpkh : Nat → List Nat
  rootDerive : Nat → List Nat → Nat
  address : List Nat → Nat → String
  parse_multisig : List Nat → Option (Nat × List Nat)
  xpubDeriveKey : Nat → List Nat → Nat
  xpubBase58 : Nat → Nat
  psbtParse : List Nat → Option PSBT
  psbtSerialize : PSBT → List Nat
  baseDecode : List Nat → Nat → Option (List Nat)
  baseEncode : List Nat → Nat → List Nat
  cborToPsbt : List Nat → Option (List Nat)
  psbtToCbor : List Nat → List Nat
  signWith : PSBT → Nat → Nat × PSBT

/-- Python dict lookup on a Nat-keyed association list. -/
def lookupNat {β : Type} : List (Nat × β) → Nat → Option β
  | [], _ => none
  | (k, v) :: t, key => if k = key then some v else lookupNat t key

/-- is_multisig from psbt.py: the type key is always present in the
dictionaries this code builds, so the test reduces to the p2wsh substring
check plus presence of m, n and cosigners; evaluating the substring test
on a None type value raises TypeError. -/
def is_multisig (policy : Policy) : Except PyError Bool :=
  match policy.type with
  | none => .error (.typeError ("argument of type NoneType is not iterable"))
  | some t => .ok (strContains t ("p2wsh") && policy.m.isSome && policy.n.isSome
      && policy.cosigners.isSome)

/-- The match test of the inner xpub loop of get_cosigners: fingerprints
agree, the origin path equals the derivation path minus its last two
indices, and applying the last two indices to the xpub derives the pubkey. -/
def cosignerMatch (env : Env) (der : DerivationPath) (pubkey : Nat)
    (x : Nat × DerivationPath) : Bool :=
  x.2.fingerprint == der.fingerprint
    && x.2.derivation == der.derivation.take (der.derivation.length - 2)
    && env.xpubDeriveKey x.1 (der.derivation.drop (der.derivation.length - 2)) == pubkey

/-- The pubkey loop of get_cosigners: raise on a missing derivation entry,
otherwise record the base58 form of the first matching xpub (if any) and
continue. -/
def cosignersLoop (env : Env) (derivations xpubs : List (Nat × DerivationPath)) :
    List Nat → Except PyError (List Nat)
  | [] => .ok []
  | pubkey :: rest =>
    match lookupNat derivations pubkey with
    | none => .error (.valueError ("missing derivation"))
    | some der =>
      match xpubs.find? (cosignerMatch env der pubkey) with
      | some x =>
        match cosignersLoop env derivations xpubs rest with
        | .error e => .error e
        | .ok cs => .ok (env.xpubBase58 x.1 :: cs)
      | none => cosignersLoop env derivations xpubs rest

/-- get_cosigners from psbt.py: one base58 xpub per pubkey, PolicyError
(ValueError) when a derivation entry is missing or the match count differs
from the pubkey count; the result is sorted. -/
def get_cosigners (env : Env) (pubkeys : List Nat)
    (derivations xpubs : List (Nat × DerivationPath)) : Except PyError (List Nat) :=
  match cosignersLoop env derivations xpubs pubkeys with
  | .error e => .error e
  | .ok cosigners =>
    if cosigners.length ≠ pubkeys.length then .error (.valueError ("cannot get all cosigners"))
    else .ok (List.insertionSort (· ≤ ·) cosigners)

/-- The per-pubkey result of the get_cosigners loop, as a function: the
base58 form of the first matching xpub, none when the pubkey has no
derivation entry or no xpub matches. -/
def cosignerFor (env : Env) (derivations xpubs : List (Nat × DerivationPath))
    (pubkey : Nat) : Option Nat :=
  (lookupNat derivations pubkey).bind
    (fun der => (xpubs.find? (cosignerMatch env der pubkey)).map (fun x => env.xpubBase58 x.1))

/-- get_policy from psbt.py: classify the scriptPubKey, disambiguate P2SH
into nested-segwit multisig or single-sig via the redeem and witness
scripts, and for p2wsh-flavored types with a witness script parse the
multisig template and bind the cosigners. A None script type raises
TypeError at the substring test, and parse_multisig or get_cosigners
failures propagate. -/
def get_policy (env : Env) (scope : Scope) (scriptpubkey : List Nat)
    (xpubs : List (Nat × DerivationPath)) : Except PyError Policy :=
  let st0 := env.script_type scriptpubkey
  let st1 : Option String :=
    if st0 = some ("p2sh") then
      if scope.witness_script.isSome then some ("p2sh-p2wsh")
      else
        match scope.redeem_script with
        | some rs => if env.script_type rs = some ("p2wpkh") then some ("p2sh-p2wpkh") else st0
        | none => st0
    else st0
  match st1 with
  | none => .error (.typeError ("argument of type NoneType is not iterable"))
  | some t =>
    if strContains t ("p2wsh") then
      match scope.witness_script with
      | some ws =>
        match env.parse_multisig ws with
        | none => .error (.valueError ("not a multisig script"))
        | some (m, pubkeys) =>
          match get_cosigners env pubkeys scope.bip32_derivations xpubs with
          | .error e => .error e
          | .ok cosigners => .ok ⟨some t, some m, some cosigners.length, some cosigners⟩
      | none => .ok ⟨some t, none, none, none⟩
    else .ok ⟨some t, none, none, none⟩

/-- The policy-of-one-input expression of PSBTSigner.init:
get_policy(inp, inp.witness_utxo.script_pubkey, xpubs); reading
script_pubkey off a missing witness UTXO raises AttributeError. -/
def inputPolicy (env : Env) (xpubs : List (Nat × DerivationPath)) (inp : Scope) :
    Except PyError Policy :=
  match inp.witness_utxo with
  | none => .error (.attributeError ("NoneType object has no attribute script_pubkey"))
  | some u => get_policy env inp u.script_pubkey xpubs

/-- The input loop of PSBTSigner.init: any exception from policy extraction
is replaced by ValueError Unable-to-get-policy; the first extracted policy
is adopted and every later one must equal it, else ValueError mixed-inputs. -/
def foldPolicy (env : Env) (xpubs : List (Nat × DerivationPath)) :
    Option Policy → List Scope → Except PyError (Option Policy)
  | pol, [] => .ok pol
  | pol, inp :: rest =>
    match inputPolicy env xpubs inp with
    | .error _ => .error (.valueError ("Unable to get policy"))
    | .ok inp_policy =>
      match pol with
      | none => foldPolicy env xpubs (some inp_policy) rest
      | some p =>
        if p ≠ inp_policy then .error (.valueError ("mixed inputs in the tx"))
        else foldPolicy env xpubs (some p) rest

/-- PSBTSigner.xpubs: prefer the global xpub map of the PSBT; fall back to
the wallet descriptor keys that carry origin data (keys without origin are
skipped); FormatError (ValueError missing-xpubs) only when the wallet has
no descriptor at all. -/
def PSBTSigner.xpubs (psbt : PSBT) (wallet : Wallet) :
    Except PyError (List (Nat × DerivationPath)) :=
  if psbt.xpubs ≠ [] then .ok psbt.xpubs
  else
    match wallet.descriptor with
    | none => .error (.valueError ("missing xpubs"))
    | some desc =>
      let descriptor_keys := match desc.key with | some k => [k] | none => desc.keys
      .ok (descriptor_keys.filterMap
        (fun dk => dk.origin.map (fun o => (dk.key, DerivationPath.mk o.fingerprint o.derivation))))

/-- Modelled from the spec: FORMAT_PMOFN is the part-M-of-N QR format enum
constant imported from the qr module, which is not part of src; it is an
opaque token whose concrete value is irrelevant. -/
def FORMAT_PMOFN : Nat := 1

/-- Input to PSBTSigner construction: either a UR object carrying CBOR, or
raw bytes (a str argument is encoded to bytes first, so both are bytes). -/
inductive PsbtData where
  | ur (cbor : List Nat)
  | bytes (data : List Nat)
deriving DecidableEq

/-- The decode cascade of PSBTSigner.init: a UR object goes through the
crypto-psbt CBOR envelope; bytes are tried as raw PSBT (recording base64
re-encoding when the QR format is part-M-of-N), then base64, base58 and
base43; every failure of a stage falls through, and ValueError
invalid-PSBT is raised when all fail. Returns the parsed PSBT, the
recorded base encoding and whether the UR envelope was used. -/
def decodePsbt (env : Env) (psbt_data : PsbtData) (qr_format : Nat) :
    Except PyError (PSBT × Option Nat × Bool) :=
  match psbt_data with
  | .ur c =>
    match (env.cborToPsbt c).bind env.psbtParse with
    | some p => .ok (p, none, true)
    | none => .error (.valueError ("invalid PSBT"))
  | .bytes b =>
    match env.psbtParse b with
    | some p => .ok (p, if qr_format = FORMAT_PMOFN then some 64 else none, false)
    | none =>
      match (env.baseDecode b 64).bind env.psbtParse with
      | some p => .ok (p, some 64, false)
      | none =>
        match (env.baseDecode b 58).bind env.psbtParse with
        | some p => .ok (p, some 58, false)
        | none =>
          match (env.baseDecode b 43).bind env.psbtParse with
          | some p => .ok (p, some 43, false)
          | none => .error (.valueError ("invalid PSBT"))

/-- The state of a successfully constructed PSBTSigner. -/
structure SignerState where
  wallet : Wallet
  psbt : PSBT
  base_encoding : Option Nat
  ur_type : Bool
  qr_format : Nat
  policy : Option Policy
deriving DecidableEq

/-- PSBTSigner.__init__ from psbt.py: decode, gather xpubs, extract and
compare the policy of every input, then cross-check multisig-ness and the
loaded wallet policy. Calling is_multisig on a still-None policy (a PSBT
with no inputs) raises TypeError, as the Python membership test does on
None. -/
def PSBTSigner.init (env : Env) (wallet : Wallet) (psbt_data : PsbtData) (qr_format : Nat) :
    Except PyError SignerState :=
  match decodePsbt env psbt_data qr_format with
  | .error e => .error e
  | .ok (psbt, base_encoding, ur_t) =>
    match PSBTSigner.xpubs psbt wallet with
    | .error e => .error e
    | .ok xpubs =>
      match foldPolicy env xpubs none psbt.inputs with
      | .error e => .error e
      | .ok policy =>
        match (match policy with
          | none => Except.error (PyError.typeError ("argument of type NoneType is not iterable"))
          | some p => is_multisig p) with
        | .error e => .error e
        | .ok isMs =>
          if isMs && !wallet.is_multisig then .error (.valueError ("multisig tx"))
          else if !isMs && wallet.is_multisig then .error (.valueError ("not multisig tx"))
          else if wallet.is_loaded ∧ wallet.policy ≠ policy then
            .error (.valueError ("policy mismatch"))
          else .ok ⟨wallet, psbt, base_encoding, ur_t, qr_format, policy⟩

/-- Mutable state of the output-classification loop of PSBTSigner.outputs.
The sc local persists across iterations and starts unbound (none): reading
it before any policy-matching output has assigned it raises
UnboundLocalError, exactly as in Python. -/
structure LoopState where
  sc : Option (List Nat)
  spend_list : List (String × Int)
  self_transfer_list : List (String × Int)
  change_list : List (String × Int)
  spend_amount : Int
  self_amount : Int
  change_amount : Int
deriving DecidableEq

/-- Loop state before the first output is processed. -/
def LoopState.start : LoopState := ⟨none, [], [], [], 0, 0, 0⟩

/-- The script reconstruction of the policy-matching branch of outputs():
for multisig rebuild P2WSH or P2SH-P2WSH from the witness script of the
output; for pkh single-sig derive the child key from the first derivation
of the output and rebuild P2WPKH or P2SH-P2WPKH; in every unhandled case
keep the empty script the branch starts from. -/
def rebuildScript (env : Env) (wallet : Wallet) (pol : Policy) (out : Scope) :
    Except PyError (List Nat) :=
  if pol.type = some ("p2wsh") then
    match out.witness_script with
    | some ws => .ok (env.p2wsh ws)
    | none => .error (.attributeError ("NoneType object has no attribute data"))
  else if pol.type = some ("p2sh-p2wsh") then
    match out.witness_script with
    | some ws => .ok (env.p2sh (env.p2wsh ws))
    | none => .error (.attributeError ("NoneType object has no attribute data"))
  else
    match pol.type with
    | none => .error (.typeError ("argument of type NoneType is not iterable"))
    | some t =>
      if strContains t ("pkh") then
        match out.bip32_derivations with
        | [] => .ok []
        | (_, d) :: _ =>
          if t = "p2wpkh" then .ok (env.p2wpkh (env.rootDerive wallet.keyRoot d.derivation))
          else if t = "p2sh-p2wpkh" then
            .ok (env.p2sh (env.p2wpkh (env.rootDerive wallet.keyRoot d.derivation)))
          else .ok []
      else .ok []

/-- One iteration of the output loop of PSBTSigner.outputs: extract the
output policy (exceptions propagate), on policy match overwrite sc with
the rebuilt script, then compare sc byte-for-byte with the actual
scriptPubKey; a matching output goes to the change list when its first
derivation path has 1 at index 3 (IndexError on shorter paths), else to
the self-transfer list; a non-matching output goes to the spend list. -/
def outputStep (env : Env) (wallet : Wallet) (policy : Option Policy)
    (xpubs : List (Nat × DerivationPath)) (st : LoopState) (out : Scope) (vout : TxOut) :
    Except PyError LoopState :=
  match get_policy env out vout.script_pubkey xpubs with
  | .error e => .error e
  | .ok out_policy =>
    match (match policy with
      | some pol =>
        if out_policy = pol then
          match rebuildScript env wallet pol out with
          | .error e => .error e
          | .ok sc => .ok (some sc)
        else .ok st.sc
      | none => .ok st.sc : Except PyError (Option (List Nat))) with
    | .error e => .error e
    | .ok none => .error (.unboundLocalError ("sc"))
    | .ok (some sc) =>
      if sc = vout.script_pubkey then
        match out.bip32_derivations with
        | [] =>
          .ok { st with
              sc := some sc,
              self_transfer_list := st.self_transfer_list
                ++ [(env.address vout.script_pubkey wallet.keyNetwork, vout.value)],
              self_amount := st.self_amount + vout.value }
        | (_, d) :: _ =>
          match d.derivation.get? 3 with
          | none => .error .indexError
          | some k =>
            if k = 1 then
              .ok { st with
                  sc := some sc,
                  change_list := st.change_list
                    ++ [(env.address vout.script_pubkey wallet.keyNetwork, vout.value)],
                  change_amount := st.change_amount + vout.value }
            else
              .ok { st with
                  sc := some sc,
                  self_transfer_list := st.self_transfer_list
                    ++ [(env.address vout.script_pubkey wallet.keyNetwork, vout.value)],
                  self_amount := st.self_amount + vout.value }
      else
        .ok { st with
            sc := some sc,
            spend_list := st.spend_list
              ++ [(env.address vout.script_pubkey wallet.keyNetwork, vout.value)],
            spend_amount := st.spend_amount + vout.value }

/-- The enumerated output loop: outputs are walked in order, indexing the
transaction vout list in lockstep (IndexError when an output scope has no
corresponding transaction output). -/
def outputsLoop (env : Env) (wallet : Wallet) (policy : Option Policy)
    (xpubs : List (Nat × DerivationPath)) :
    List Scope → List TxOut → LoopState → Except PyError LoopState
  | [], _, st => .ok st
  | _ :: _, [], _ => .error .indexError
  | out :: outs, vout :: vouts, st =>
    match outputStep env wallet policy xpubs st out vout with
    | .error e => .error e
    | .ok st1 => outputsLoop env wallet policy xpubs outs vouts st1

/-- The input-amount loop of PSBTSigner.outputs: sums witness-UTXO values,
AttributeError when an input has no witness UTXO. -/
def inputsTotal : List Scope → Int → Except PyError Int
  | [], acc => .ok acc
  | inp :: rest, acc =>
    match inp.witness_utxo with
    | none => .error (.attributeError ("NoneType object has no attribute value"))
    | some u => inputsTotal rest (acc + u.value)

/-- The classification produced by PSBTSigner.outputs: the per-class
address/amount lists and totals, and the fee. The message strings the
method assembles from these (via the t and satcomma helpers, whose modules
are not part of src) carry exactly this data. -/
structure OutputsResult where
  inp_amount : Int
  spend_list : List (String × Int)
  self_transfer_list : List (String × Int)
  change_list : List (String × Int)
  spend_amount : Int
  self_amount : Int
  change_amount : Int
  fee : Int
deriving DecidableEq

/-- PSBTSigner.outputs from psbt.py: sum the input amounts, classify every
transaction output by walking the output scopes, and compute
fee = inputs total - spend total - self total - change total. -/
def PSBTSigner.outputs (env : Env) (st : SignerState) : Except PyError OutputsResult :=
  match inputsTotal st.psbt.inputs 0 with
  | .error e => .error e
  | .ok inp_amount =>
    match PSBTSigner.xpubs st.psbt st.wallet with
    | .error e => .error e
    | .ok xpubs =>
      match outputsLoop env st.wallet st.policy xpubs st.psbt.outputs st.psbt.tx.vout
          LoopState.start with
      | .error e => .error e
      | .ok fin =>
        .ok ⟨inp_amount, fin.spend_list, fin.self_transfer_list, fin.change_list,
          fin.spend_amount, fin.self_amount, fin.change_amount,
          inp_amount - fin.spend_amount - fin.self_amount - fin.change_amount⟩

/-- The trimming loop of PSBTSigner.sign: copy each partial-signature map
of the signed PSBT onto the corresponding fresh scope of the trimmed PSBT
(IndexError if the signed PSBT has more inputs than the skeleton). -/
def assignSigs : List Scope → List Scope → Except PyError (List Scope)
  | trimmed, [] => .ok trimmed
  | [], _ :: _ => .error .indexError
  | t :: ts, s :: ss =>
    match assignSigs ts ss with
    | .error e => .error e
    | .ok rest => .ok ({ t with partial_sigs := s.partial_sigs } :: rest)

/-- PSBTSigner.sign from psbt.py: delegate to sign_with on the wallet root
key; SigningError (ValueError cannot-sign) when zero signatures were
added; otherwise replace the internal PSBT with a trimmed copy holding
only the transaction skeleton and the partial-signature maps. -/
def PSBTSigner.sign (env : Env) (st : SignerState) : Except PyError SignerState :=
  let res := env.signWith st.psbt st.wallet.keyRoot
  if res.1 = 0 then .error (.valueError ("cannot sign"))
  else
    match assignSigs (PSBT.ofTx res.2.tx).inputs res.2.inputs with
    | .error e => .error e
    | .ok newInputs => .ok { st with psbt := { PSBT.ofTx res.2.tx with inputs := newInputs } }

/-- Payload returned by PSBTSigner.psbt_qr: either a UR envelope around
CBOR or plain (possibly base-encoded) data. -/
inductive QrPayload where
  | ur (cbor : List Nat)
  | plain (data : List Nat)
deriving DecidableEq

/-- PSBTSigner.psbt_qr from psbt.py: serialize the PSBT, re-apply the base
encoding recorded at decode time, and re-wrap in the crypto-psbt CBOR
envelope when the input was a UR object; paired with the QR format. -/
def PSBTSigner.psbt_qr (env : Env) (st : SignerState) : QrPayload × Nat :=
  let psbt_data := env.psbtSerialize st.psbt
  let psbt_data2 := match st.base_encoding with
    | some b => env.baseEncode psbt_data b
    | none => psbt_data
  if st.ur_type then (QrPayload.ur (env.psbtToCbor psbt_data2), st.qr_format)
  else (QrPayload.plain psbt_data2, st.qr_format)

/-- Decoding a psbt_qr payload back: apply the inverse of the recorded base
encoding, or unwrap the CBOR envelope for a UR payload (the claim-side
reading of returning the PSBT in the same form it was read). -/
def payloadDecode (env : Env) (base_encoding : Option Nat) (out : QrPayload) :
    Option (List Nat) :=
  match out with
  | .ur c => env.cborToPsbt c
  | .plain d =>
    match base_encoding with
    | some b => env.baseDecode d b
    | none => some d

/-- Concrete single-sig change derivation (84h/1h/0h/1/0) for witnesses. -/
def derW : DerivationPath := ⟨100, [2147483732, 2147483649, 2147483648, 1, 0]⟩

/-- Concrete p2wpkh input with witness UTXO of value 10 at script [0]. -/
def inpW : Scope := ⟨some ⟨[0], 10⟩, none, none, [(11, derW)], []⟩

/-- Concrete p2pkh input with witness UTXO of value 3 at script [9]. -/
def inpB : Scope := ⟨some ⟨[9], 3⟩, none, none, [], []⟩

/-- Concrete wallet-owned single-sig change output scope. -/
def outChange : Scope := ⟨none, none, none, [(11, derW)], []⟩

/-- Multisig derivations 48h/1h/0h/2h/1/0 of the three cosigner pubkeys. -/
def derM1 : DerivationPath := ⟨101, [2147483696, 2147483649, 2147483648, 2147483650, 1, 0]⟩

/-- Second cosigner derivation. -/
def derM2 : DerivationPath := ⟨102, [2147483696, 2147483649, 2147483648, 2147483650, 1, 0]⟩

/-- Third cosigner derivation. -/
def derM3 : DerivationPath := ⟨103, [2147483696, 2147483649, 2147483648, 2147483650, 1, 0]⟩

/-- Pubkey to derivation map of the multisig output scope. -/
def dersM : List (Nat × DerivationPath) := [(11, derM1), (12, derM2), (13, derM3)]

/-- Global xpub map binding three cosigner xpubs to account-level origins. -/
def xpubsM : List (Nat × DerivationPath) :=
  [(21, ⟨101, [2147483696, 2147483649, 2147483648, 2147483650]⟩),
   (22, ⟨102, [2147483696, 2147483649, 2147483648, 2147483650]⟩),
   (23, ⟨103, [2147483696, 2147483649, 2147483648, 2147483650]⟩)]

/-- Wallet-owned multisig change output scope (witness script [3]). -/
def outM : Scope := ⟨none, some [3], none, dersM, []⟩

/-- Concrete single-sig PSBT: one input, a change output and a spend output. -/
def psbtW : PSBT :=
  ⟨⟨1, [⟨[0], 4⟩, ⟨[9], 3⟩]⟩, [inpW], [outChange, Scope.empty], [(0, ⟨0, []⟩)]⟩

/-- Concrete PSBT whose two inputs carry different policies. -/
def psbtC2 : PSBT := ⟨⟨2, []⟩, [inpW, inpB], [], [(0, ⟨0, []⟩)]⟩

/-- Concrete multisig input whose policy extraction reaches cosigner
matching. -/
def inp10 : Scope := ⟨some ⟨[7], 10⟩, some [3], none, [(11, derM1)], []⟩

/-- Concrete multisig PSBT with no global xpubs. -/
def psbt10 : PSBT := ⟨⟨1, []⟩, [inp10], [], []⟩

/-- Concrete multisig PSBT with a wallet-owned change-branch output. -/
def psbtM : PSBT := ⟨⟨1, [⟨[7], 4⟩]⟩, [⟨some ⟨[7], 10⟩, none, none, [], []⟩], [outM], xpubsM⟩

/-- Concrete environment interpreting the external collaborators on the
toy byte values used by the witnesses: script [0] is p2wpkh, [9] is p2pkh,
[7] is p2wsh; the witness script [3] parses as 2-of-3 over pubkeys 11, 12,
13 whose xpubs are 21, 22, 23; base and CBOR codecs prepend a tag byte;
PSBT parse and serialize are a finite bijection. -/
def envW : Env :=
  { script_type := fun b =>
      if b = [0] then some ("p2wpkh")
      else if b = [9] then some ("p2pkh")
      else if b = [7] then some ("p2wsh")
      else none,
    p2wsh := fun ws => if ws = [3] then [7] else 90 :: ws,
    p2sh := fun s => 91 :: s,
    p2wpkh := fun k => if k = 5 then [0] else [92, k],
    rootDerive := fun _ _ => 5,
    address := fun _ _ => "addr",
    parse_multisig := fun ws => if ws = [3] then some (2, [11, 12, 13]) else none,
    xpubDeriveKey := fun x p => if p = [1, 0] then x - 10 else 0,
    xpubBase58 := fun x => x,
    psbtParse := fun b =>
      if b = [1] then some psbtW
      else if b = [4] then some psbtC2
      else if b = [6] then some psbt10
      else none,
    psbtSerialize := fun p =>
      if p = psbtW then [1]
      else if p = psbtC2 then [4]
      else if p = psbt10 then [6]
      else [2],
    baseDecode := fun y base => if y.head? = some base then some y.tail else none,
    baseEncode := fun x base => base :: x,
    cborToPsbt := fun y => if y.head? = some 77 then some y.tail else none,
    psbtToCbor := fun x => 77 :: x,
    signWith := fun p _ => (1, p) }

/-- Single-sig wallet, nothing loaded. -/
def walletW : Wallet := ⟨false, false, none, none, 50, 60⟩

/-- Multisig wallet, nothing loaded. -/
def walletM : Wallet := ⟨true, false, none, none, 50, 60⟩

/-- Multisig wallet whose descriptor keys carry no origin data. -/
def wallet10 : Wallet := ⟨true, false, none, some ⟨none, [⟨30, none⟩]⟩, 50, 60⟩

/-- Single-sig p2wpkh policy. -/
def polW : Policy := ⟨some ("p2wpkh"), none, none, none⟩

/-- Single-sig p2pkh policy. -/
def polB : Policy := ⟨some ("p2pkh"), none, none, none⟩

/-- The 2-of-3 multisig policy of the witness data. -/
def polM : Policy := ⟨some ("p2wsh"), some 2, some 3, some [21, 22, 23]⟩

/-- Ready signer over the single-sig PSBT. -/
def stW : SignerState := ⟨walletW, psbtW, none, false, 0, some polW⟩

/-- Ready signer whose first transaction output carries a foreign policy. -/
def stC1 : SignerState :=
  ⟨walletW, ⟨⟨1, [⟨[9], 3⟩]⟩, [inpW], [Scope.empty], [(0, ⟨0, []⟩)]⟩, none, false, 0, some polW⟩

/-- Ready signer over the multisig PSBT with a change-branch output. -/
def stM : SignerState := ⟨walletM, psbtM, none, false, 0, some polM⟩

/-- The signer state produced by constructing from base58 bytes [58, 1]. -/
def st58 : SignerState := ⟨walletW, psbtW, some 58, false, 0, some polW⟩

/-- Input-to-policy assignment of the mixed-inputs witness. -/
def fW : Scope → Policy := fun inp => if inp = inpW then polW else polB

/-- envW with a sign_with that adds zero signatures. -/
def envS0 : Env := { envW with signWith := fun p _ => (0, p) }

/- ----------------------------------------------------------------------
   Theorems
   ---------------------------------------------------------------------- -/

theorem exceptMap_ok_of_forall {α β : Type} (f : α → Except PyError β) (g : α → β) :
    ∀ (l : List α), (∀ a ∈ l, f a = .ok (g a)) → exceptMap f l = .ok (l.map g) := by
  intro l
  induction l with
  | nil => intro _; rfl
  | cons a l ih =>
    intro h
    have ha := h a (by simp)
    have hl := ih (fun b hb => h b (by simp [hb]))
    simp [exceptMap, ha, hl]

theorem digitChar_ne_h : ∀ d, d < 10 → digitChar d ≠ 'h' := by decide

theorem natCharsAux_ne_h : ∀ (fuel n : Nat), ∀ c ∈ natCharsAux fuel n, c ≠ 'h' := by
  intro fuel
  induction fuel with
  | zero => intro n c hc; simp [natCharsAux] at hc
  | succ fuel ih =>
    intro n c hc
    by_cases h : n < 10
    · simp [natCharsAux, h] at hc
      subst hc; exact digitChar_ne_h n h
    · simp [natCharsAux, h] at hc
      rcases hc with hc | hc
      · exact ih _ c hc
      · subst hc; exact digitChar_ne_h _ (Nat.mod_lt _ (by omega))

theorem format_natChars (n : Nat) : format_derivation (natChars n) = natChars n := by
  unfold format_derivation
  have hh := natCharsAux_ne_h (n + 1) n
  calc (natChars n).map (fun c => if c = 'h' then HARDENED_STR_REPLACE else c)
      = (natChars n).map id := by
        apply List.map_congr_left
        intro a ha
        simp only [id]
        rw [if_neg (hh a ha)]
    _ = natChars n := List.map_id _

theorem format_derivation_append (a b : List Char) :
    format_derivation (a ++ b) = format_derivation a ++ format_derivation b :=
  List.map_append _ a b

theorem format_DER_SINGLE (p c a : Nat) :
    format_derivation (DER_SINGLE p c a)
      = ['m', '/'] ++ natChars p ++ [apos, '/'] ++ natChars c ++ [apos, '/']
        ++ natChars a ++ [apos] := by
  unfold DER_SINGLE
  rw [format_derivation_append, format_derivation_append, format_derivation_append,
    format_derivation_append, format_derivation_append, format_derivation_append,
    format_natChars, format_natChars, format_natChars]
  have h1 : format_derivation [Char.ofNat 109, Char.ofNat 47] = ['m', '/'] := by decide
  have h2 : format_derivation [Char.ofNat 104, Char.ofNat 47] = [apos, '/'] := by decide
  have h3 : format_derivation [Char.ofNat 104] = [apos] := by decide
  rw [h1, h2, h3]

theorem format_DER_MULTI (p c a : Nat) :
    format_derivation (DER_MULTI p c a)
      = ['m', '/'] ++ natChars p ++ [apos, '/'] ++ natChars c ++ [apos, '/']
        ++ natChars a ++ [apos] ++ ['/', '2', apos] := by
  unfold DER_MULTI
  rw [format_derivation_append, format_DER_SINGLE]
  have h4 : format_derivation [Char.ofNat 47, Char.ofNat 50, Char.ofNat 104] = ['/', '2', apos] := by
    decide
  rw [h4]

/-- C8: for every network coin-type c and account index a, the default
derivation path computed at key construction (rendered with the hardened
marker, as displayed) is m/44'/c'/a' for p2pkh, m/49'/c'/a' for
p2sh-p2wpkh, m/84'/c'/a' for p2wpkh, m/86'/c'/a' for p2tr, and
m/48'/c'/a'/2' whenever the multisig flag is set (for every script type
argument, since the multisig branch ignores it). -/
theorem claim_C8_default_derivation_paths (c a : Nat) :
    (get_default_derivation false ⟨c⟩ a ("p2pkh")).map format_derivation
        = .ok (['m', '/', '4', '4', apos, '/'] ++ natChars c ++ [apos, '/'] ++ natChars a ++ [apos])
    ∧ (get_default_derivation false ⟨c⟩ a ("p2sh-p2wpkh")).map format_derivation
        = .ok (['m', '/', '4', '9', apos, '/'] ++ natChars c ++ [apos, '/'] ++ natChars a ++ [apos])
    ∧ (get_default_derivation false ⟨c⟩ a ("p2wpkh")).map format_derivation
        = .ok (['m', '/', '8', '4', apos, '/'] ++ natChars c ++ [apos, '/'] ++ natChars a ++ [apos])
    ∧ (get_default_derivation false ⟨c⟩ a ("p2tr")).map format_derivation
        = .ok (['m', '/', '8', '6', apos, '/'] ++ natChars c ++ [apos, '/'] ++ natChars a ++ [apos])
    ∧ ∀ script_type : String,
        (get_default_derivation true ⟨c⟩ a script_type).map format_derivation
          = .ok (['m', '/', '4', '8', apos, '/'] ++ natChars c ++ [apos, '/'] ++ natChars a
              ++ [apos, '/', '2', apos]) := by
  have hlook : ∀ st : String, get_default_derivation false ⟨c⟩ a st
      = match lookupStr SINGLESIG_SCRIPT_PURPOSE st with
        | some purpose => .ok (DER_SINGLE purpose c a)
        | none => .error (.keyError st) := fun _ => rfl
  refine ⟨?_, ?_, ?_, ?_, ?_⟩
  · rw [hlook]
    have : lookupStr SINGLESIG_SCRIPT_PURPOSE ("p2pkh") = some 44 := by decide
    rw [this]
    show Except.ok (format_derivation (DER_SINGLE 44 c a)) = _
    rw [format_DER_SINGLE]
    have : natChars 44 = ['4', '4'] := by decide
    rw [this]
    simp
  · rw [hlook]
    have : lookupStr SINGLESIG_SCRIPT_PURPOSE ("p2sh-p2wpkh") = some 49 := by decide
    rw [this]
    show Except.ok (format_derivation (DER_SINGLE 49 c a)) = _
    rw [format_DER_SINGLE]
    have : natChars 49 = ['4', '9'] := by decide
    rw [this]
    simp
  · rw [hlook]
    have : lookupStr SINGLESIG_SCRIPT_PURPOSE ("p2wpkh") = some 84 := by decide
    rw [this]
    show Except.ok (format_derivation (DER_SINGLE 84 c a)) = _
    rw [format_DER_SINGLE]
    have : natChars 84 = ['8', '4'] := by decide
    rw [this]
    simp
  · rw [hlook]
    have : lookupStr SINGLESIG_SCRIPT_PURPOSE ("p2tr") = some 86 := by decide
    rw [this]
    show Except.ok (format_derivation (DER_SINGLE 86 c a)) = _
    rw [format_DER_SINGLE]
    have : natChars 86 = ['8', '6'] := by decide
    rw [this]
    simp
  · intro st
    show Except.ok (format_derivation (DER_MULTI MULTISIG_SCRIPT_PURPOSE c a)) = _
    rw [format_DER_MULTI]
    have : natChars MULTISIG_SCRIPT_PURPOSE = ['4', '8'] := by decide
    rw [this]
    simp

theorem wordAccu_append (ws : List Nat) (w : Nat) :
    wordAccu (ws ++ [w]) = wordAccu ws * 2048 + w := by
  simp [wordAccu, List.foldl_append]

theorem wordAccu_foldl_lt : ∀ (l : List Nat) (a : Nat), (∀ w ∈ l, w < 2048) →
    List.foldl (fun acc w => acc * 2048 + w) a l < (a + 1) * 2048 ^ l.length := by
  intro l
  induction l with
  | nil => intro a _; simp
  | cons w l ih =>
    intro a h
    have hw : w < 2048 := h w (by simp)
    have hrec := ih (a * 2048 + w) (fun x hx => h x (by simp [hx]))
    calc List.foldl (fun acc w => acc * 2048 + w) (a * 2048 + w) l
        < (a * 2048 + w + 1) * 2048 ^ l.length := hrec
      _ ≤ ((a + 1) * 2048) * 2048 ^ l.length := Nat.mul_le_mul_right _ (by omega)
      _ = (a + 1) * 2048 ^ (l.length + 1) := by ring

theorem wordAccu_lt (l : List Nat) (h : ∀ w ∈ l, w < 2048) :
    wordAccu l < 2048 ^ l.length := by
  have := wordAccu_foldl_lt l 0 h
  simpa [wordAccu] using this

theorem checksum_valid_append_12 (sha256 : List Nat → Nat) (ws : List Nat) (accu i c : Nat)
    (hlen : ws.length = 12) (hv : wordAccu ws = accu * 2048 + (i * 16 + c)) (hc : c < 16)
    (hdig : (sha256 (toBytesBE 16 (accu * 128 + i)) % 2 ^ 256) / 2 ^ 252 = c) :
    checksum_valid sha256 ws = true := by
  unfold checksum_valid
  rw [hlen, hv]
  norm_num at hdig ⊢
  have h1 : (accu * 2048 + (i * 16 + c)) / 16 = accu * 128 + i := by omega
  have h2 : (accu * 2048 + (i * 16 + c)) % 16 = c := by omega
  rw [h1, h2, hdig]

theorem checksum_valid_append_24 (sha256 : List Nat → Nat) (ws : List Nat) (accu i c : Nat)
    (hlen : ws.length = 24) (hv : wordAccu ws = accu * 2048 + (i * 256 + c)) (hc : c < 256)
    (hdig : (sha256 (toBytesBE 32 (accu * 8 + i)) % 2 ^ 256) / 2 ^ 248 = c) :
    checksum_valid sha256 ws = true := by
  unfold checksum_valid
  rw [hlen, hv]
  norm_num at hdig ⊢
  have h1 : (accu * 2048 + (i * 256 + c)) / 256 = accu * 8 + i := by omega
  have h2 : (accu * 2048 + (i * 256 + c)) % 256 = c := by omega
  rw [h1, h2, hdig]

theorem finalWordBody_ok_11 (sha256 : List Nat → Nat) (accu i : Nat)
    (haccu : accu < 2048 ^ 11) (hi : i < 128) :
    finalWordBody sha256 accu 128 7 4 i
      = .ok (i * 16 + (sha256 (toBytesBE 16 (accu * 128 + i)) % 2 ^ 256) / 2 ^ 252) := by
  have hpow : (2048 : Nat) ^ 11 = 2 ^ 121 := by norm_num
  have hent : accu * 2 ^ 7 + i < 256 ^ (128 / 8) := by
    have h1 : accu + 1 ≤ 2 ^ 121 := by omega
    have h2 : (accu + 1) * 2 ^ 7 ≤ 2 ^ 121 * 2 ^ 7 := Nat.mul_le_mul_right _ h1
    have h3 : (2 : Nat) ^ 121 * 2 ^ 7 = 256 ^ (128 / 8) := by norm_num
    have h4 : accu * 2 ^ 7 + i < (accu + 1) * 2 ^ 7 := by
      have : (2 : Nat) ^ 7 = 128 := by norm_num
      omega
    omega
  have hck : (sha256 (toBytesBE (128 / 8) (accu * 2 ^ 7 + i)) % 2 ^ 256) / 2 ^ (256 - 4)
      < 2 ^ 4 := by
    apply Nat.div_lt_of_lt_mul
    calc sha256 (toBytesBE (128 / 8) (accu * 2 ^ 7 + i)) % 2 ^ 256 < 2 ^ 256 :=
          Nat.mod_lt _ (by positivity)
      _ = 2 ^ (256 - 4) * 2 ^ 4 := by norm_num
  have hidx : i * 2 ^ 4
      + (sha256 (toBytesBE (128 / 8) (accu * 2 ^ 7 + i)) % 2 ^ 256) / 2 ^ (256 - 4) < 2048 := by
    have e4 : (2 : Nat) ^ 4 = 16 := by norm_num
    omega
  unfold finalWordBody
  rw [if_pos hent, if_pos hidx]
  norm_num

theorem finalWordBody_ok_23 (sha256 : List Nat → Nat) (accu i : Nat)
    (haccu : accu < 2048 ^ 23) (hi : i < 8) :
    finalWordBody sha256 accu 256 3 8 i
      = .ok (i * 256 + (sha256 (toBytesBE 32 (accu * 8 + i)) % 2 ^ 256) / 2 ^ 248) := by
  have hpow : (2048 : Nat) ^ 23 = 2 ^ 253 := by norm_num
  have hent : accu * 2 ^ 3 + i < 256 ^ (256 / 8) := by
    have h1 : accu + 1 ≤ 2 ^ 253 := by omega
    have h2 : (accu + 1) * 2 ^ 3 ≤ 2 ^ 253 * 2 ^ 3 := Nat.mul_le_mul_right _ h1
    have h3 : (2 : Nat) ^ 253 * 2 ^ 3 = 256 ^ (256 / 8) := by norm_num
    have h4 : accu * 2 ^ 3 + i < (accu + 1) * 2 ^ 3 := by
      have : (2 : Nat) ^ 3 = 8 := by norm_num
      omega
    omega
  have hck : (sha256 (toBytesBE (256 / 8) (accu * 2 ^ 3 + i)) % 2 ^ 256) / 2 ^ (256 - 8)
      < 2 ^ 8 := by
    apply Nat.div_lt_of_lt_mul
    calc sha256 (toBytesBE (256 / 8) (accu * 2 ^ 3 + i)) % 2 ^ 256 < 2 ^ 256 :=
          Nat.mod_lt _ (by positivity)
      _ = 2 ^ (256 - 8) * 2 ^ 8 := by norm_num
  have hidx : i * 2 ^ 8
      + (sha256 (toBytesBE (256 / 8) (accu * 2 ^ 3 + i)) % 2 ^ 256) / 2 ^ (256 - 8) < 2048 := by
    have e8 : (2 : Nat) ^ 8 = 256 := by norm_num
    omega
  unfold finalWordBody
  rw [if_pos hent, if_pos hidx]
  norm_num

theorem gfwc_ok_11 (sha256 : List Nat → Nat) (words : List Nat)
    (h11 : words.length = 11) (hw : ∀ w ∈ words, w < 2048) :
    get_final_word_candidates sha256 words
      = .ok ((List.range 128).map (fun i =>
          i * 16 + (sha256 (toBytesBE 16 (wordAccu words * 128 + i)) % 2 ^ 256) / 2 ^ 252)) := by
  have hval : exceptMap (fun w => if w < 2048 then Except.ok w
      else Except.error (PyError.valueError ("is not in list"))) words = .ok words := by
    have h := exceptMap_ok_of_forall (fun w => if w < 2048 then Except.ok w
      else Except.error (PyError.valueError ("is not in list"))) id words
      (fun a ha => by simp [hw a ha])
    simpa using h
  have haccu : wordAccu words < 2048 ^ 11 := h11 ▸ wordAccu_lt words hw
  have hmap := exceptMap_ok_of_forall (finalWordBody sha256 (wordAccu words) 128 7 4)
    (fun i => i * 16 + (sha256 (toBytesBE 16 (wordAccu words * 128 + i)) % 2 ^ 256) / 2 ^ 252)
    (List.range 128)
    (fun i hi => finalWordBody_ok_11 sha256 (wordAccu words) i haccu (List.mem_range.1 hi))
  simp only [get_final_word_candidates, h11]
  rw [if_neg (show ¬((11 : Nat) ≠ 11 ∧ (11 : Nat) ≠ 23) by norm_num)]
  rw [hval]
  exact hmap

theorem gfwc_ok_23 (sha256 : List Nat → Nat) (words : List Nat)
    (h23 : words.length = 23) (hw : ∀ w ∈ words, w < 2048) :
    get_final_word_candidates sha256 words
      = .ok ((List.range 8).map (fun i =>
          i * 256 + (sha256 (toBytesBE 32 (wordAccu words * 8 + i)) % 2 ^ 256) / 2 ^ 248)) := by
  have hval : exceptMap (fun w => if w < 2048 then Except.ok w
      else Except.error (PyError.valueError ("is not in list"))) words = .ok words := by
    have h := exceptMap_ok_of_forall (fun w => if w < 2048 then Except.ok w
      else Except.error (PyError.valueError ("is not in list"))) id words
      (fun a ha => by simp [hw a ha])
    simpa using h
  have haccu : wordAccu words < 2048 ^ 23 := h23 ▸ wordAccu_lt words hw
  have hmap := exceptMap_ok_of_forall (finalWordBody sha256 (wordAccu words) 256 3 8)
    (fun i => i * 256 + (sha256 (toBytesBE 32 (wordAccu words * 8 + i)) % 2 ^ 256) / 2 ^ 248)
    (List.range 8)
    (fun i hi => finalWordBody_ok_23 sha256 (wordAccu words) i haccu (List.mem_range.1 hi))
  simp only [get_final_word_candidates, h23]
  rw [if_neg (show ¬((23 : Nat) ≠ 11 ∧ (23 : Nat) ≠ 23) by norm_num)]
  rw [hval]
  exact hmap

/-- C4: for every list of exactly 11 or 23 valid words,
get_final_word_candidates returns exactly 2 to the power needed_bits
candidate words (needed_bits = (len*11+11)/33*32 - len*11, so 128
candidates for 11 words and 8 for 23 words), each below 2048 and such that
appending it to the input forms a mnemonic whose top checksum bits of the
sha256 digest of its entropy equal its checksum field; for any other word
count it fails with ValueError (InvalidArgument). -/
theorem claim_C4_final_word_candidates (sha256 : List Nat → Nat) (words : List Nat) :
    ((words.length = 11 ∨ words.length = 23) → (∀ w ∈ words, w < 2048) →
      ∃ cands, get_final_word_candidates sha256 words = .ok cands ∧
        cands.length = 2 ^ ((words.length * 11 + 11) / 33 * 32 - words.length * 11) ∧
        ∀ w ∈ cands, w < 2048 ∧ checksum_valid sha256 (words ++ [w]) = true)
    ∧ ((words.length ≠ 11 ∧ words.length ≠ 23) →
        get_final_word_candidates sha256 words
          = .error (.valueError ("must provide 11 or 23 words"))) := by
  constructor
  · intro hlen hw
    rcases hlen with h11 | h23
    · refine ⟨_, gfwc_ok_11 sha256 words h11 hw, ?_, ?_⟩
      · simp only [List.length_map, List.length_range, h11]
        norm_num
      · intro w hwm
        rcases List.mem_map.1 hwm with ⟨i, hir, rfl⟩
        have hi : i < 128 := List.mem_range.1 hir
        have hc : (sha256 (toBytesBE 16 (wordAccu words * 128 + i)) % 2 ^ 256) / 2 ^ 252
            < 16 := by
          apply Nat.div_lt_of_lt_mul
          calc sha256 (toBytesBE 16 (wordAccu words * 128 + i)) % 2 ^ 256 < 2 ^ 256 :=
                Nat.mod_lt _ (by positivity)
            _ = 2 ^ 252 * 16 := by norm_num
        refine ⟨by omega, ?_⟩
        exact checksum_valid_append_12 sha256 _ (wordAccu words) i _
          (by simp [h11]) (wordAccu_append words _) hc rfl
    · refine ⟨_, gfwc_ok_23 sha256 words h23 hw, ?_, ?_⟩
      · simp only [List.length_map, List.length_range, h23]
        norm_num
      · intro w hwm
        rcases List.mem_map.1 hwm with ⟨i, hir, rfl⟩
        have hi : i < 8 := List.mem_range.1 hir
        have hc : (sha256 (toBytesBE 32 (wordAccu words * 8 + i)) % 2 ^ 256) / 2 ^ 248
            < 256 := by
          apply Nat.div_lt_of_lt_mul
          calc sha256 (toBytesBE 32 (wordAccu words * 8 + i)) % 2 ^ 256 < 2 ^ 256 :=
                Nat.mod_lt _ (by positivity)
            _ = 2 ^ 248 * 256 := by norm_num
        refine ⟨by omega, ?_⟩
        exact checksum_valid_append_24 sha256 _ (wordAccu words) i _
          (by simp [h23]) (wordAccu_append words _) hc rfl
  · intro hne
    unfold get_final_word_candidates
    rw [if_pos hne]

theorem claim_C4_witness :
    ∃ cands, get_final_word_candidates sha256W wordsW = .ok cands ∧
      cands.length = 2 ^ ((wordsW.length * 11 + 11) / 33 * 32 - wordsW.length * 11) ∧
      ∀ w ∈ cands, w < 2048 ∧ checksum_valid sha256W (wordsW ++ [w]) = true :=
  (claim_C4_final_word_candidates sha256W wordsW).1 (Or.inl (by decide)) (by decide)

/- ----------------------------------------------------------------------
   src/krux/psbt.py : data model
   ---------------------------------------------------------------------- -/

/-- C1 (code bug exhibit): a PSBT whose first transaction output carries a
policy different from the shared input policy makes outputs() raise
UnboundLocalError on the sc local instead of classifying the output as
spend: sc is assigned only inside the policy-matching branch, yet the
byte-for-byte comparison reads it for every output. The claim (and the
specification) say such an output is classified as spend without raising. -/
theorem claim_C1_foreign_first_output_raises :
    PSBTSigner.outputs envW stC1 = .error (.unboundLocalError ("sc")) := by decide

/-- C3 (counterexample): a wallet-owned multisig change output whose
derivation path 48h/1h/0h/2h/1/0 has change flag 1 (the second-to-last
index) is classified as self-transfer, not change, because the code tests
index 3 of the path, which for the 6-level multisig path is the hardened
constant 2h. -/
theorem claim_C3_counterexample :
    PSBTSigner.outputs envW stM = .ok ⟨10, [], [("addr", 4)], [], 0, 4, 0, 6⟩
      ∧ derM1.derivation.get? (derM1.derivation.length - 2) = some 1
      ∧ stM.psbt.outputs = [outM]
      ∧ outM.bip32_derivations.head? = some (11, derM1) := by decide

/-- C3 (amended): an output proven wallet-owned (its policy equals the
shared policy and the script rebuilt from the wallet key material equals
its scriptPubKey byte-for-byte) is classified as change exactly when its
first BIP-32 derivation path has the value 1 at index 3 — the change flag
position of the 5-level single-sig paths — and as self-transfer otherwise;
in particular multisig outputs on the default 6-level path (2h at index 3)
are always classified self-transfer. -/
theorem claim_C3_amended_change_flag
    (env : Env) (wallet : Wallet) (xpubs : List (Nat × DerivationPath))
    (st : LoopState) (out : Scope) (vout : TxOut) (pol : Policy) (st' : LoopState)
    (hpol : get_policy env out vout.script_pubkey xpubs = .ok pol)
    (hsc : rebuildScript env wallet pol out = .ok vout.script_pubkey)
    (hstep : outputStep env wallet (some pol) xpubs st out vout = .ok st') :
    st'.spend_list = st.spend_list
    ∧ ((∃ p d rest, out.bip32_derivations = (p, d) :: rest ∧ d.derivation.get? 3 = some 1) →
        st'.change_list = st.change_list
            ++ [(env.address vout.script_pubkey wallet.keyNetwork, vout.value)]
          ∧ st'.self_transfer_list = st.self_transfer_list)
    ∧ ((∀ p d rest, out.bip32_derivations = (p, d) :: rest → d.derivation.get? 3 ≠ some 1) →
        st'.self_transfer_list = st.self_transfer_list
            ++ [(env.address vout.script_pubkey wallet.keyNetwork, vout.value)]
          ∧ st'.change_list = st.change_list) := by
  unfold outputStep at hstep
  simp only [hpol, hsc, eq_self_iff_true, if_true] at hstep
  split at hstep
  · rename_i heq
    simp only [Except.ok.injEq] at hstep
    subst hstep
    refine ⟨rfl, ?_, fun _ => ⟨rfl, rfl⟩⟩
    rintro ⟨p, d, r, hcons, _⟩
    rw [heq] at hcons
    cases hcons
  · rename_i fst d tail heq
    split at hstep
    · exact Except.noConfusion hstep
    · rename_i k hg
      split at hstep
      · rename_i hk
        subst hk
        simp only [Except.ok.injEq] at hstep
        subst hstep
        refine ⟨rfl, fun _ => ⟨rfl, rfl⟩, ?_⟩
        intro hall
        exact absurd hg (hall fst d tail heq)
      · rename_i hk
        simp only [Except.ok.injEq] at hstep
        subst hstep
        refine ⟨rfl, ?_, fun _ => ⟨rfl, rfl⟩⟩
        rintro ⟨p', d', r', hcons, hgd⟩
        rw [heq] at hcons
        injection hcons with h1 h2
        injection h1 with hp hd
        subst hd
        rw [hg] at hgd
        injection hgd with hk1
        exact absurd hk1 hk

theorem claim_C3_witness :
    (⟨some [0], [], [], [("addr", 4)], 0, 0, 4⟩ : LoopState).spend_list
        = LoopState.start.spend_list
    ∧ ((∃ p d rest, outChange.bip32_derivations = (p, d) :: rest
          ∧ d.derivation.get? 3 = some 1) →
        (⟨some [0], [], [], [("addr", 4)], 0, 0, 4⟩ : LoopState).change_list
            = LoopState.start.change_list
              ++ [(envW.address (⟨[0], 4⟩ : TxOut).script_pubkey walletW.keyNetwork,
                  (⟨[0], 4⟩ : TxOut).value)]
          ∧ (⟨some [0], [], [], [("addr", 4)], 0, 0, 4⟩ : LoopState).self_transfer_list
            = LoopState.start.self_transfer_list)
    ∧ ((∀ p d rest, outChange.bip32_derivations = (p, d) :: rest
          → d.derivation.get? 3 ≠ some 1) →
        (⟨some [0], [], [], [("addr", 4)], 0, 0, 4⟩ : LoopState).self_transfer_list
            = LoopState.start.self_transfer_list
              ++ [(envW.address (⟨[0], 4⟩ : TxOut).script_pubkey walletW.keyNetwork,
                  (⟨[0], 4⟩ : TxOut).value)]
          ∧ (⟨some [0], [], [], [("addr", 4)], 0, 0, 4⟩ : LoopState).change_list
            = LoopState.start.change_list) :=
  claim_C3_amended_change_flag envW walletW psbtW.xpubs LoopState.start outChange
    ⟨[0], 4⟩ polW ⟨some [0], [], [], [("addr", 4)], 0, 0, 4⟩
    (by decide) (by decide) (by decide)

theorem foldPolicy_mixed (env : Env) (xs : List (Nat × DerivationPath)) (f : Scope → Policy) :
    ∀ (l : List Scope) (p : Policy),
      (∀ inp ∈ l, inputPolicy env xs inp = .ok (f inp)) →
      (∃ inp ∈ l, f inp ≠ p) →
      foldPolicy env xs (some p) l = .error (.valueError ("mixed inputs in the tx")) := by
  intro l
  induction l with
  | nil => intro p _ hne; simp at hne
  | cons inp rest ih =>
    intro p hpol hne
    have hinp := hpol inp (by simp)
    simp only [foldPolicy, hinp]
    by_cases hip : p = f inp
    · rw [if_neg (by simp [hip])]
      rcases hne with ⟨a, ha, hafp⟩
      rcases List.mem_cons.1 ha with h | h
      · exact absurd (h ▸ hafp) (by simp [hip])
      · exact ih p (fun b hb => hpol b (by simp [hb])) ⟨a, h, hafp⟩
    · rw [if_pos hip]

/-- C2: constructing a PSBTSigner from a successfully decoded PSBT whose
inputs yield two different inferred policies fails with PolicyError
(ValueError mixed-inputs-in-the-tx) and never reaches the Ready state.
The statement quantifies over every input list, hence over every
processing order of the same set of inputs. -/
theorem claim_C2_mixed_inputs (env : Env) (wallet : Wallet) (pd : PsbtData) (fmt : Nat)
    (P : PSBT) (enc : Option Nat) (urt : Bool) (xs : List (Nat × DerivationPath))
    (f : Scope → Policy)
    (hdec : decodePsbt env pd fmt = .ok (P, enc, urt))
    (hx : PSBTSigner.xpubs P wallet = .ok xs)
    (hpol : ∀ inp ∈ P.inputs, inputPolicy env xs inp = .ok (f inp))
    (hmix : ∃ a ∈ P.inputs, ∃ b ∈ P.inputs, f a ≠ f b) :
    PSBTSigner.init env wallet pd fmt = .error (.valueError ("mixed inputs in the tx")) := by
  rcases hmix with ⟨a, ha, b, hb, hab⟩
  have hfold : foldPolicy env xs none P.inputs
      = .error (.valueError ("mixed inputs in the tx")) := by
    cases hl : P.inputs with
    | nil => rw [hl] at ha; simp at ha
    | cons hd tl =>
      rw [hl] at ha hb
      have hpol' : ∀ inp ∈ hd :: tl, inputPolicy env xs inp = .ok (f inp) := by
        intro inp hinp; exact hpol inp (hl ▸ hinp)
      have hhd := hpol' hd (by simp)
      simp only [foldPolicy, hhd]
      by_cases hall : ∀ inp ∈ tl, f inp = f hd
      · exfalso
        have hfa : f a = f hd := by
          rcases List.mem_cons.1 ha with h | h
          · rw [h]
          · exact hall a h
        have hfb : f b = f hd := by
          rcases List.mem_cons.1 hb with h | h
          · rw [h]
          · exact hall b h
        exact hab (hfa.trans hfb.symm)
      · push_neg at hall
        rcases hall with ⟨i0, hi0, hne0⟩
        exact foldPolicy_mixed env xs f tl (f hd)
          (fun inpb hinpb => hpol' inpb (by simp [hinpb])) ⟨i0, hi0, hne0⟩
  simp only [PSBTSigner.init, hdec, hx, hfold]

theorem claim_C2_witness :
    PSBTSigner.init envW walletW (.bytes [4]) 0
      = .error (.valueError ("mixed inputs in the tx")) :=
  claim_C2_mixed_inputs envW walletW (.bytes [4]) 0 psbtC2 none false [(0, ⟨0, []⟩)] fW
    (by decide) (by decide) (by decide) ⟨inpW, by decide, inpB, by decide, by decide⟩

theorem cosignersLoop_ok (env : Env) (ders xs : List (Nat × DerivationPath)) :
    ∀ pks : List Nat, (∀ pk ∈ pks, (lookupNat ders pk).isSome) →
      cosignersLoop env ders xs pks = .ok (pks.filterMap (cosignerFor env ders xs)) := by
  intro pks
  induction pks with
  | nil => intro _; rfl
  | cons pk rest ih =>
    intro h
    rcases Option.isSome_iff_exists.1 (h pk (by simp)) with ⟨der, hder⟩
    have hrest := ih (fun q hq => h q (by simp [hq]))
    have hcf : cosignerFor env ders xs pk
        = (xs.find? (cosignerMatch env der pk)).map (fun x => env.xpubBase58 x.1) := by
      simp [cosignerFor, hder]
    cases hf : xs.find? (cosignerMatch env der pk) with
    | some x =>
      simp [cosignersLoop, hder, hf, hrest, List.filterMap_cons, hcf]
    | none =>
      simp [cosignersLoop, hder, hf, hrest, List.filterMap_cons, hcf]

theorem cosignersLoop_missing (env : Env) (ders xs : List (Nat × DerivationPath)) :
    ∀ pks : List Nat, (∃ pk ∈ pks, lookupNat ders pk = none) →
      cosignersLoop env ders xs pks = .error (.valueError ("missing derivation")) := by
  intro pks
  induction pks with
  | nil => intro h; simp at h
  | cons pk rest ih =>
    intro h
    cases hlk : lookupNat ders pk with
    | none => simp [cosignersLoop, hlk]
    | some der =>
      rcases h with ⟨q, hq, hqn⟩
      rcases List.mem_cons.1 hq with hqe | hqr
      · rw [hqe] at hqn; rw [hqn] at hlk; cases hlk
      · have hr := ih ⟨q, hqr, hqn⟩
        cases hf : xs.find? (cosignerMatch env der pk) with
        | some x => simp [cosignersLoop, hlk, hf, hr]
        | none => simp [cosignersLoop, hlk, hf, hr]

theorem filterMap_length_eq_iff {α β : Type} (f : α → Option β) :
    ∀ l : List α, ((l.filterMap f).length = l.length ↔ ∀ a ∈ l, (f a).isSome) := by
  intro l
  induction l with
  | nil => simp
  | cons a l ih =>
    cases hf : f a with
    | none =>
      simp only [List.filterMap_cons, hf, List.length_cons]
      constructor
      · intro h
        exfalso
        have := List.length_filterMap_le f l
        omega
      · intro h
        exact absurd (h a (by simp)) (by simp [hf])
    | some b =>
      simp only [List.filterMap_cons, hf, List.length_cons]
      constructor
      · intro h
        intro q hq
        rcases List.mem_cons.1 hq with hqe | hqr
        · rw [hqe, hf]; rfl
        · exact (ih.1 (by omega)) q hqr
      · intro h
        have := ih.2 (fun q hq => h q (by simp [hq]))
        omega

/-- C5: get_cosigners returns a sorted list of base58 xpubs containing one
matching xpub per pubkey (the sorted image of the per-pubkey first-match
function), and fails with PolicyError (ValueError) whenever some pubkey
has no derivation entry (missing derivation) or the number of matches
found differs from the number of pubkeys (cannot get all cosigners). -/
theorem claim_C5_get_cosigners (env : Env) (pubkeys : List Nat)
    (derivations xpubs : List (Nat × DerivationPath)) :
    (∀ res, get_cosigners env pubkeys derivations xpubs = .ok res →
      List.Sorted (· ≤ ·) res
        ∧ res.length = pubkeys.length
        ∧ res = List.insertionSort (· ≤ ·)
            (pubkeys.filterMap (cosignerFor env derivations xpubs))
        ∧ ∀ pk ∈ pubkeys, (cosignerFor env derivations xpubs pk).isSome)
    ∧ ((∃ pk ∈ pubkeys, lookupNat derivations pk = none) →
        get_cosigners env pubkeys derivations xpubs
          = .error (.valueError ("missing derivation")))
    ∧ ((∀ pk ∈ pubkeys, (lookupNat derivations pk).isSome) →
        (∃ pk ∈ pubkeys, cosignerFor env derivations xpubs pk = none) →
        get_cosigners env pubkeys derivations xpubs
          = .error (.valueError ("cannot get all cosigners"))) := by
  refine ⟨?_, ?_, ?_⟩
  · intro res hres
    by_cases hall : ∀ pk ∈ pubkeys, (lookupNat derivations pk).isSome
    · have hloop := cosignersLoop_ok env derivations xpubs pubkeys hall
      have hgc : get_cosigners env pubkeys derivations xpubs
          = if (pubkeys.filterMap (cosignerFor env derivations xpubs)).length
                ≠ pubkeys.length
            then .error (.valueError ("cannot get all cosigners"))
            else .ok (List.insertionSort (· ≤ ·)
              (pubkeys.filterMap (cosignerFor env derivations xpubs))) := by
        unfold get_cosigners
        rw [hloop]
      rw [hgc] at hres
      by_cases hlen : (pubkeys.filterMap (cosignerFor env derivations xpubs)).length
          = pubkeys.length
      · rw [if_neg (by simp [hlen])] at hres
        injection hres with hres
        subst hres
        refine ⟨List.sorted_insertionSort _ _, ?_, rfl, ?_⟩
        · rw [(List.perm_insertionSort (· ≤ ·) _).length_eq, hlen]
        · exact (filterMap_length_eq_iff _ pubkeys).1 hlen
      · rw [if_pos hlen] at hres
        cases hres
    · push_neg at hall
      rcases hall with ⟨pk, hpk, hnone⟩
      have hml := cosignersLoop_missing env derivations xpubs pubkeys
        ⟨pk, hpk, by simpa using hnone⟩
      unfold get_cosigners at hres
      rw [hml] at hres
      cases hres
  · intro hex
    rcases hex with ⟨pk, hpk, hnone⟩
    have hml := cosignersLoop_missing env derivations xpubs pubkeys ⟨pk, hpk, hnone⟩
    unfold get_cosigners
    rw [hml]
  · intro hall hex
    have hloop := cosignersLoop_ok env derivations xpubs pubkeys hall
    have hlen : (pubkeys.filterMap (cosignerFor env derivations xpubs)).length
        ≠ pubkeys.length := by
      intro heq
      rcases hex with ⟨pk, hpk, hnone⟩
      have hsome := (filterMap_length_eq_iff _ pubkeys).1 heq pk hpk
      rw [hnone] at hsome
      cases hsome
    have hgc : get_cosigners env pubkeys derivations xpubs
        = if (pubkeys.filterMap (cosignerFor env derivations xpubs)).length
              ≠ pubkeys.length
          then .error (.valueError ("cannot get all cosigners"))
          else .ok (List.insertionSort (· ≤ ·)
            (pubkeys.filterMap (cosignerFor env derivations xpubs))) := by
      unfold get_cosigners
      rw [hloop]
    rw [hgc, if_pos hlen]

theorem claim_C5_witness :
    List.Sorted (· ≤ ·) ([21, 22, 23] : List Nat)
      ∧ ([21, 22, 23] : List Nat).length = ([11, 12, 13] : List Nat).length
      ∧ ([21, 22, 23] : List Nat) = List.insertionSort (· ≤ ·)
          (([11, 12, 13] : List Nat).filterMap (cosignerFor envW dersM xpubsM))
      ∧ ∀ pk ∈ ([11, 12, 13] : List Nat), (cosignerFor envW dersM xpubsM pk).isSome :=
  (claim_C5_get_cosigners envW [11, 12, 13] dersM xpubsM).1 [21, 22, 23] (by decide)

theorem outputStep_amounts (env : Env) (wallet : Wallet) (policy : Option Policy)
    (xpubs : List (Nat × DerivationPath)) (st : LoopState) (out : Scope) (vout : TxOut)
    (st' : LoopState) (h : outputStep env wallet policy xpubs st out vout = .ok st') :
    st'.spend_amount + st'.self_amount + st'.change_amount
      = st.spend_amount + st.self_amount + st.change_amount + vout.value := by
  unfold outputStep at h
  split at h
  · exact Except.noConfusion h
  · cases policy
    all_goals repeat' split at h
    all_goals first
      | exact Except.noConfusion h
      | (injection h with h; subst h; simp; omega)

theorem outputsLoop_amounts (env : Env) (wallet : Wallet) (policy : Option Policy)
    (xpubs : List (Nat × DerivationPath)) :
    ∀ (outs : List Scope) (vouts : List TxOut) (st st' : LoopState),
      outputsLoop env wallet policy xpubs outs vouts st = .ok st' →
      st'.spend_amount + st'.self_amount + st'.change_amount
        = st.spend_amount + st.self_amount + st.change_amount
            + ((vouts.take outs.length).map TxOut.value).sum := by
  intro outs
  induction outs with
  | nil =>
    intro vouts st st' h
    injection h with h
    subst h
    simp
  | cons out rest ih =>
    intro vouts st st' h
    cases vouts with
    | nil => exact Except.noConfusion h
    | cons vout vrest =>
      unfold outputsLoop at h
      cases hstep : outputStep env wallet policy xpubs st out vout with
      | error e => rw [hstep] at h; exact Except.noConfusion h
      | ok st1 =>
        rw [hstep] at h
        have h1 := outputStep_amounts env wallet policy xpubs st out vout st1 hstep
        have h2 := ih vrest st1 st' h
        simp only [List.length_cons, List.take_succ_cons, List.map_cons, List.sum_cons] at h2 ⊢
        omega

/-- C6: when outputs() succeeds, the fee it reports equals the inputs total
minus the spend, self-transfer and change totals; and since every
transaction output is classified into exactly one of the three classes,
for a PSBT whose output scopes line up with the transaction outputs the
fee equals (sum of the witness-UTXO input values) minus (sum of all
transaction output values). -/
theorem claim_C6_fee (env : Env) (st : SignerState) (r : OutputsResult)
    (h : PSBTSigner.outputs env st = .ok r)
    (hlen : st.psbt.outputs.length = st.psbt.tx.vout.length) :
    r.fee = r.inp_amount - r.spend_amount - r.self_amount - r.change_amount
      ∧ ∃ tin, inputsTotal st.psbt.inputs 0 = .ok tin
          ∧ r.inp_amount = tin
          ∧ r.fee = tin - (st.psbt.tx.vout.map TxOut.value).sum := by
  unfold PSBTSigner.outputs at h
  split at h
  · exact Except.noConfusion h
  · rename_i tin htin
    split at h
    · exact Except.noConfusion h
    · rename_i xs hxs
      split at h
      · exact Except.noConfusion h
      · rename_i fin hfin
        injection h with h
        subst h
        refine ⟨rfl, tin, htin, rfl, ?_⟩
        have hsum := outputsLoop_amounts env st.wallet st.policy xs
          st.psbt.outputs st.psbt.tx.vout LoopState.start fin hfin
        rw [hlen, List.take_length] at hsum
        simp only [LoopState.start] at hsum
        simp only [OutputsResult.fee]
        omega

theorem claim_C6_witness :
    (⟨10, [("addr", 3)], [], [("addr", 4)], 3, 0, 4, 3⟩ : OutputsResult).fee
        = (⟨10, [("addr", 3)], [], [("addr", 4)], 3, 0, 4, 3⟩ : OutputsResult).inp_amount
          - (⟨10, [("addr", 3)], [], [("addr", 4)], 3, 0, 4, 3⟩ : OutputsResult).spend_amount
          - (⟨10, [("addr", 3)], [], [("addr", 4)], 3, 0, 4, 3⟩ : OutputsResult).self_amount
          - (⟨10, [("addr", 3)], [], [("addr", 4)], 3, 0, 4, 3⟩ : OutputsResult).change_amount
      ∧ ∃ tin, inputsTotal stW.psbt.inputs 0 = .ok tin
          ∧ (⟨10, [("addr", 3)], [], [("addr", 4)], 3, 0, 4, 3⟩ : OutputsResult).inp_amount
              = tin
          ∧ (⟨10, [("addr", 3)], [], [("addr", 4)], 3, 0, 4, 3⟩ : OutputsResult).fee
              = tin - (stW.psbt.tx.vout.map TxOut.value).sum :=
  claim_C6_fee envW stW ⟨10, [("addr", 3)], [], [("addr", 4)], 3, 0, 4, 3⟩
    (by decide) (by decide)

theorem assignSigs_replicate :
    ∀ (src : List Scope) (k : Nat), k = src.length →
      assignSigs (List.replicate k Scope.empty) src
        = .ok ((src.map fun s => { Scope.empty with partial_sigs := s.partial_sigs })
            ++ List.replicate (k - src.length) Scope.empty) := by
  intro src
  induction src with
  | nil =>
    intro k hk
    subst hk
    rfl
  | cons s ss ih =>
    intro k hk
    subst hk
    simp only [List.length_cons, List.replicate_succ, assignSigs]
    rw [ih ss.length rfl]
    simp

theorem assignSigs_ne_cannot_sign :
    ∀ (t s : List Scope), assignSigs t s ≠ .error (.valueError ("cannot sign")) := by
  intro t
  induction t with
  | nil =>
    intro s
    cases s with
    | nil => simp [assignSigs]
    | cons a b => simp [assignSigs]
  | cons x xs ih =>
    intro s
    cases s with
    | nil => simp [assignSigs]
    | cons a b =>
      simp only [assignSigs]
      cases hr : assignSigs xs b with
      | error e =>
        intro hcontra
        injection hcontra with he
        exact ih b (by rw [hr, he])
      | ok r => simp

/-- C7: sign() fails with SigningError (ValueError cannot-sign) exactly
when sign_with added zero signatures; on success (given the PSBT invariant
that the signed PSBT has one input scope per transaction input) the
internal PSBT is replaced by a trimmed copy that keeps the transaction
skeleton and each input partial-signature map and drops every other field
(fresh empty scopes, no global xpubs). -/
theorem claim_C7_sign (env : Env) (st : SignerState) :
    (PSBTSigner.sign env st = .error (.valueError ("cannot sign"))
        ↔ (env.signWith st.psbt st.wallet.keyRoot).1 = 0)
    ∧ ((env.signWith st.psbt st.wallet.keyRoot).1 ≠ 0 →
        (env.signWith st.psbt st.wallet.keyRoot).2.inputs.length
            = (env.signWith st.psbt st.wallet.keyRoot).2.tx.vinCount →
        PSBTSigner.sign env st = .ok { st with psbt :=
          { tx := (env.signWith st.psbt st.wallet.keyRoot).2.tx,
            inputs := (env.signWith st.psbt st.wallet.keyRoot).2.inputs.map
              (fun s => { Scope.empty with partial_sigs := s.partial_sigs }),
            outputs := List.replicate
              (env.signWith st.psbt st.wallet.keyRoot).2.tx.vout.length Scope.empty,
            xpubs := [] } }) := by
  constructor
  · constructor
    · intro herr
      by_contra hne
      unfold PSBTSigner.sign at herr
      rw [if_neg hne] at herr
      cases hassign : assignSigs (PSBT.ofTx (env.signWith st.psbt st.wallet.keyRoot).2.tx).inputs
          (env.signWith st.psbt st.wallet.keyRoot).2.inputs with
      | error e =>
        rw [hassign] at herr
        injection herr with he
        exact assignSigs_ne_cannot_sign _ _ (by rw [hassign, he])
      | ok r =>
        rw [hassign] at herr
        cases herr
    · intro hzero
      unfold PSBTSigner.sign
      rw [if_pos hzero]
  · intro hne hlen
    unfold PSBTSigner.sign
    rw [if_neg hne]
    have hrep : (PSBT.ofTx (env.signWith st.psbt st.wallet.keyRoot).2.tx).inputs
        = List.replicate (env.signWith st.psbt st.wallet.keyRoot).2.tx.vinCount Scope.empty :=
      rfl
    rw [hrep, assignSigs_replicate (env.signWith st.psbt st.wallet.keyRoot).2.inputs
      (env.signWith st.psbt st.wallet.keyRoot).2.tx.vinCount hlen.symm]
    rw [hlen]
    simp [PSBT.ofTx]

theorem claim_C7_witness :
    PSBTSigner.sign envS0 stW = .error (.valueError ("cannot sign"))
      ∧ PSBTSigner.sign envW stW = .ok { stW with psbt :=
          { tx := (envW.signWith stW.psbt stW.wallet.keyRoot).2.tx,
            inputs := (envW.signWith stW.psbt stW.wallet.keyRoot).2.inputs.map
              (fun s => { Scope.empty with partial_sigs := s.partial_sigs }),
            outputs := List.replicate
              (envW.signWith stW.psbt stW.wallet.keyRoot).2.tx.vout.length Scope.empty,
            xpubs := [] } } :=
  ⟨(claim_C7_sign envS0 stW).1.mpr (by decide),
    (claim_C7_sign envW stW).2 (by decide) (by decide)⟩

theorem init_ok_decode (env : Env) (wallet : Wallet) (pd : PsbtData) (fmt : Nat)
    (st : SignerState) (h : PSBTSigner.init env wallet pd fmt = .ok st) :
    decodePsbt env pd fmt = .ok (st.psbt, st.base_encoding, st.ur_type)
      ∧ st.wallet = wallet ∧ st.qr_format = fmt := by
  unfold PSBTSigner.init at h
  repeat' split at h
  all_goals try exact Except.noConfusion h
  injection h with h
  subst h
  exact ⟨by assumption, rfl, rfl⟩

/-- C9: for every PSBT accepted at construction via any of the five
supported encodings (UR/CBOR envelope, raw binary, base64, base58,
base43), the payload returned by psbt_qr() before sign() re-applies the
base encoding and UR framing recorded at decode time, and decoding that
payload yields exactly the bytes the original decode step parsed,
provided the external codecs are inverses (serialize inverts parse, the
base codecs and the CBOR envelope codecs round-trip). -/
theorem claim_C9_psbt_qr_roundtrip (env : Env) (wallet : Wallet) (fmt : Nat)
    (hps : ∀ b P, env.psbtParse b = some P → env.psbtSerialize P = b)
    (hb : ∀ x base, env.baseDecode (env.baseEncode x base) base = some x)
    (hc : ∀ x, env.cborToPsbt (env.psbtToCbor x) = some x) :
    (∀ c d P st, env.cborToPsbt c = some d → env.psbtParse d = some P →
      PSBTSigner.init env wallet (.ur c) fmt = .ok st →
      payloadDecode env st.base_encoding (PSBTSigner.psbt_qr env st).1 = some d)
    ∧ (∀ b P st, env.psbtParse b = some P →
        PSBTSigner.init env wallet (.bytes b) fmt = .ok st →
        payloadDecode env st.base_encoding (PSBTSigner.psbt_qr env st).1 = some b)
    ∧ (∀ b d P st, env.psbtParse b = none → env.baseDecode b 64 = some d →
        env.psbtParse d = some P →
        PSBTSigner.init env wallet (.bytes b) fmt = .ok st →
        payloadDecode env st.base_encoding (PSBTSigner.psbt_qr env st).1 = some d)
    ∧ (∀ b d P st, env.psbtParse b = none →
        (env.baseDecode b 64).bind env.psbtParse = none →
        env.baseDecode b 58 = some d → env.psbtParse d = some P →
        PSBTSigner.init env wallet (.bytes b) fmt = .ok st →
        payloadDecode env st.base_encoding (PSBTSigner.psbt_qr env st).1 = some d)
    ∧ (∀ b d P st, env.psbtParse b = none →
        (env.baseDecode b 64).bind env.psbtParse = none →
        (env.baseDecode b 58).bind env.psbtParse = none →
        env.baseDecode b 43 = some d → env.psbtParse d = some P →
        PSBTSigner.init env wallet (.bytes b) fmt = .ok st →
        payloadDecode env st.base_encoding (PSBTSigner.psbt_qr env st).1 = some d) := by
  refine ⟨?_, ?_, ?_, ?_, ?_⟩
  · intro c d P st hcb hparse hinit
    have hdec : decodePsbt env (.ur c) fmt = .ok (P, none, true) := by
      simp [decodePsbt, hcb, hparse]
    have hf := (init_ok_decode env wallet (.ur c) fmt st hinit).1
    rw [hdec] at hf
    injection hf with hf
    have hp : st.psbt = P := (congrArg Prod.fst hf).symm
    have hbe : st.base_encoding = none := (congrArg (fun x => x.2.1) hf).symm
    have hur : st.ur_type = true := (congrArg (fun x => x.2.2) hf).symm
    simp [PSBTSigner.psbt_qr, payloadDecode, hbe, hur, hp, hc, hps d P hparse]
  · intro b P st hparse hinit
    have hdec : decodePsbt env (.bytes b) fmt
        = .ok (P, if fmt = FORMAT_PMOFN then some 64 else none, false) := by
      simp [decodePsbt, hparse]
    have hf := (init_ok_decode env wallet (.bytes b) fmt st hinit).1
    rw [hdec] at hf
    injection hf with hf
    have hp : st.psbt = P := (congrArg Prod.fst hf).symm
    have hbe : st.base_encoding = (if fmt = FORMAT_PMOFN then some 64 else none) :=
      (congrArg (fun x => x.2.1) hf).symm
    have hur : st.ur_type = false := (congrArg (fun x => x.2.2) hf).symm
    by_cases hfm : fmt = FORMAT_PMOFN
    · rw [if_pos hfm] at hbe
      simp [PSBTSigner.psbt_qr, payloadDecode, hbe, hur, hp, hb, hps b P hparse]
    · rw [if_neg hfm] at hbe
      simp [PSBTSigner.psbt_qr, payloadDecode, hbe, hur, hp, hps b P hparse]
  · intro b d P st hraw h64 hparse hinit
    have hdec : decodePsbt env (.bytes b) fmt = .ok (P, some 64, false) := by
      simp [decodePsbt, hraw, h64, hparse]
    have hf := (init_ok_decode env wallet (.bytes b) fmt st hinit).1
    rw [hdec] at hf
    injection hf with hf
    have hp : st.psbt = P := (congrArg Prod.fst hf).symm
    have hbe : st.base_encoding = some 64 := (congrArg (fun x => x.2.1) hf).symm
    have hur : st.ur_type = false := (congrArg (fun x => x.2.2) hf).symm
    simp [PSBTSigner.psbt_qr, payloadDecode, hbe, hur, hp, hb, hps d P hparse]
  · intro b d P st hraw h64 h58 hparse hinit
    have hdec : decodePsbt env (.bytes b) fmt = .ok (P, some 58, false) := by
      simp [decodePsbt, hraw, h64, h58, hparse]
    have hf := (init_ok_decode env wallet (.bytes b) fmt st hinit).1
    rw [hdec] at hf
    injection hf with hf
    have hp : st.psbt = P := (congrArg Prod.fst hf).symm
    have hbe : st.base_encoding = some 58 := (congrArg (fun x => x.2.1) hf).symm
    have hur : st.ur_type = false := (congrArg (fun x => x.2.2) hf).symm
    simp [PSBTSigner.psbt_qr, payloadDecode, hbe, hur, hp, hb, hps d P hparse]
  · intro b d P st hraw h64 h58 h43 hparse hinit
    have hdec : decodePsbt env (.bytes b) fmt = .ok (P, some 43, false) := by
      simp [decodePsbt, hraw, h64, h58, h43, hparse]
    have hf := (init_ok_decode env wallet (.bytes b) fmt st hinit).1
    rw [hdec] at hf
    injection hf with hf
    have hp : st.psbt = P := (congrArg Prod.fst hf).symm
    have hbe : st.base_encoding = some 43 := (congrArg (fun x => x.2.1) hf).symm
    have hur : st.ur_type = false := (congrArg (fun x => x.2.2) hf).symm
    simp [PSBTSigner.psbt_qr, payloadDecode, hbe, hur, hp, hb, hps d P hparse]

theorem envW_parse_serialize : ∀ b P, envW.psbtParse b = some P → envW.psbtSerialize P = b := by
  intro b P h
  simp only [envW] at h ⊢
  by_cases h1 : b = [1]
  · subst h1
    rw [if_pos rfl] at h
    injection h with h
    subst h
    rw [if_pos rfl]
  · rw [if_neg h1] at h
    by_cases h4 : b = [4]
    · subst h4
      rw [if_pos rfl] at h
      injection h with h
      subst h
      rw [if_neg (by decide), if_pos rfl]
    · rw [if_neg h4] at h
      by_cases h6 : b = [6]
      · subst h6
        rw [if_pos rfl] at h
        injection h with h
        subst h
        rw [if_neg (by decide), if_neg (by decide), if_pos rfl]
      · rw [if_neg h6] at h
        cases h

theorem envW_base_roundtrip : ∀ x base, envW.baseDecode (envW.baseEncode x base) base = some x := by
  intro x base
  simp [envW]

theorem envW_cbor_roundtrip : ∀ x, envW.cborToPsbt (envW.psbtToCbor x) = some x := by
  intro x
  simp [envW]

theorem claim_C9_witness :
    payloadDecode envW st58.base_encoding (PSBTSigner.psbt_qr envW st58).1 = some [1] :=
  (claim_C9_psbt_qr_roundtrip envW walletW 0 envW_parse_serialize envW_base_roundtrip
      envW_cbor_roundtrip).2.2.2.1
    [58, 1] [1] psbtW st58 (by decide) (by decide) (by decide) (by decide) (by decide)

theorem cosignerFor_empty (env : Env) (ders : List (Nat × DerivationPath)) (pk : Nat) :
    cosignerFor env ders [] pk = none := by
  unfold cosignerFor
  cases lookupNat ders pk <;> simp [List.find?]

theorem get_cosigners_empty_xpubs (env : Env) (pks : List Nat)
    (ders : List (Nat × DerivationPath)) (h : pks ≠ []) :
    ∃ e, get_cosigners env pks ders [] = .error e := by
  by_cases hall : ∀ pk ∈ pks, (lookupNat ders pk).isSome
  · have hloop := cosignersLoop_ok env ders [] pks hall
    have hfm : pks.filterMap (cosignerFor env ders []) = [] :=
      List.filterMap_eq_nil.mpr (fun a _ => cosignerFor_empty env ders a)
    refine ⟨.valueError ("cannot get all cosigners"), ?_⟩
    have hgc : get_cosigners env pks ders []
        = if (pks.filterMap (cosignerFor env ders [])).length ≠ pks.length
          then .error (.valueError ("cannot get all cosigners"))
          else .ok (List.insertionSort (· ≤ ·) (pks.filterMap (cosignerFor env ders []))) := by
      unfold get_cosigners
      rw [hloop]
    have hlen : (pks.filterMap (cosignerFor env ders [])).length ≠ pks.length := by
      rw [hfm]
      simp only [List.length_nil]
      intro heq
      exact h (List.length_eq_zero.1 heq.symm)
    rw [hgc, if_pos hlen]
  · push_neg at hall
    rcases hall with ⟨pk, hpk, hnone⟩
    refine ⟨.valueError ("missing derivation"), ?_⟩
    have hml := cosignersLoop_missing env ders [] pks
      ⟨pk, hpk, Option.not_isSome_iff_eq_none.1 (by simpa using hnone)⟩
    unfold get_cosigners
    rw [hml]

/-- C10: when the PSBT carries no global xpubs and the wallet descriptor
has only origin-less keys, xpubs() returns the empty map without raising;
the missing-xpubs FormatError arises exactly when the PSBT has no global
xpubs and the wallet has no descriptor at all; and a signer constructed in
the empty-map case over a multisig input fails later, during cosigner
matching, with PolicyError (ValueError Unable-to-get-policy), not with
FormatError at the xpub-gathering step. -/
theorem claim_C10_xpubs_empty_fallback (env : Env) (wallet : Wallet) (pd : PsbtData)
    (fmt : Nat) (P : PSBT) (enc : Option Nat) (urt : Bool) (desc : Descriptor)
    (inp : Scope) (rest : List Scope) (u : TxOut) (t : String) (ws : List Nat)
    (m : Nat) (pks : List Nat)
    (hdec : decodePsbt env pd fmt = .ok (P, enc, urt))
    (hpx : P.xpubs = [])
    (hdesc : wallet.descriptor = some desc)
    (hkeys : ∀ dk ∈ (match desc.key with | some k => [k] | none => desc.keys),
      dk.origin = none)
    (hin : P.inputs = inp :: rest)
    (hu : inp.witness_utxo = some u)
    (hst : env.script_type u.script_pubkey = some t)
    (hst2 : t ≠ "p2sh")
    (hwsh : strContains t ("p2wsh") = true)
    (hws : inp.witness_script = some ws)
    (hpm : env.parse_multisig ws = some (m, pks))
    (hpks : pks ≠ []) :
    PSBTSigner.xpubs P wallet = .ok []
      ∧ (∀ (Q : PSBT) (w : Wallet) (e : PyError),
          PSBTSigner.xpubs Q w = .error e
            ↔ Q.xpubs = [] ∧ w.descriptor = none ∧ e = .valueError ("missing xpubs"))
      ∧ PSBTSigner.init env wallet pd fmt = .error (.valueError ("Unable to get policy")) := by
  have hnil : (match desc.key with
        | some k => [k]
        | none => desc.keys : List DescriptorKey).filterMap
      (fun dk : DescriptorKey =>
        dk.origin.map fun o => (dk.key, DerivationPath.mk o.fingerprint o.derivation))
        = [] :=
    List.filterMap_eq_nil.mpr (fun dk hdk => by rw [hkeys dk hdk]; rfl)
  have hxa : PSBTSigner.xpubs P wallet = .ok [] := by
    simp [PSBTSigner.xpubs, hpx, hdesc, hnil]
  refine ⟨hxa, ?_, ?_⟩
  · intro Q w e
    constructor
    · intro he
      unfold PSBTSigner.xpubs at he
      by_cases hx' : Q.xpubs = []
      · rw [if_neg (by simp [hx'])] at he
        cases hd : w.descriptor with
        | none =>
          rw [hd] at he
          injection he with he
          exact ⟨hx', rfl, he.symm⟩
        | some dd =>
          rw [hd] at he
          exact Except.noConfusion he
      · rw [if_pos hx'] at he
        exact Except.noConfusion he
    · rintro ⟨h1, h2, h3⟩
      subst h3
      unfold PSBTSigner.xpubs
      rw [if_neg (by simp [h1]), h2]
  · rcases get_cosigners_empty_xpubs env pks inp.bip32_derivations hpks with ⟨e, hgce⟩
    have hgp : get_policy env inp u.script_pubkey [] = .error e := by
      simp [get_policy, hst, hst2, hwsh, hws, hpm, hgce]
    have hip : inputPolicy env [] inp = .error e := by
      unfold inputPolicy
      rw [hu]
      exact hgp
    have hfold : foldPolicy env [] none P.inputs
        = .error (.valueError ("Unable to get policy")) := by
      rw [hin]
      simp [foldPolicy, hip]
    simp only [PSBTSigner.init, hdec, hxa, hfold]

theorem claim_C10_witness :
    PSBTSigner.xpubs psbt10 wallet10 = .ok []
      ∧ (∀ (Q : PSBT) (w : Wallet) (e : PyError),
          PSBTSigner.xpubs Q w = .error e
            ↔ Q.xpubs = [] ∧ w.descriptor = none ∧ e = .valueError ("missing xpubs"))
      ∧ PSBTSigner.init envW wallet10 (.bytes [6]) 0
          = .error (.valueError ("Unable to get policy")) :=
  claim_C10_xpubs_empty_fallback envW wallet10 (.bytes [6]) 0 psbt10 none false
    ⟨none, [⟨30, none⟩]⟩ inp10 [] ⟨[7], 10⟩ "p2wsh" [3] 2 [11, 12, 13]
    (by decide) (by decide) (by decide) (by decide) (by decide) (by decide) (by decide)
    (by decide) (by decide) (by decide) (by decide) (by decide)
